import Mathlib

/-!
Verification of `hack/errata.py` (cincinnati-graph-data): a shallow embedding
of the errata polling/notification script and proofs about it.

Python strings are modelled as `List Char` (`PyStr`); Python dicts used as
caches are modelled as association lists; Python `None`-able values as
`Option`.  Side effects (printing to the console, posting a Slack webhook,
posting a GitHub comment) are modelled as an event trace; an uncaught Python
exception is modelled as an `Option PyStr` error component.
-/

namespace Errata

/-- Python strings, modelled as lists of unicode scalar values. -/
abbrev PyStr := List Char

/-- Coerce a Lean string literal to the `PyStr` model. -/
def pyStr (s : String) : PyStr := s.data

/-- Python `s.split(sep)` for a single-character separator: no collapsing of
empty fields, and `''.split(sep) == ['']`. -/
def pySplit (sep : Char) : PyStr → List PyStr
  | [] => [[]]
  | c :: rest =>
    let r := pySplit sep rest
    if c = sep then [] :: r
    else
      match r with
      | [] => [[c]]
      | t :: ts => (c :: t) :: ts

/-- Python `s.startswith(p)`. -/
def pyStartsWith (p s : PyStr) : Bool := p.isPrefixOf s

/-- Python `needle in hay` substring containment. -/
def pyContains (needle : PyStr) : PyStr → Bool
  | [] => needle.isEmpty
  | c :: rest => needle.isPrefixOf (c :: rest) || pyContains needle rest

/-- Characters Python's `int()` strips from both ends of its argument
(ASCII whitespace; the model is restricted to ASCII). -/
def isPySpace (c : Char) : Bool :=
  c = ' ' || c = '\t' || c = '\n' || c = '\r' || c = '\x0b' || c = '\x0c'

/-- Value of an ASCII decimal digit. -/
def digitVal (c : Char) : Option Nat :=
  if '0' ≤ c ∧ c ≤ '9' then some (c.toNat - 48) else none

/-- Digit run of a Python integer literal after the first digit: single
underscores are permitted between digits only. -/
def parseDigitsAux (acc : Nat) : PyStr → Option Nat
  | [] => some acc
  | '_' :: c :: rest =>
    match digitVal c with
    | some d => parseDigitsAux (acc * 10 + d) rest
    | none => none
  | '_' :: [] => none
  | c :: rest =>
    match digitVal c with
    | some d => parseDigitsAux (acc * 10 + d) rest
    | none => none

/-- Digit run of a Python integer literal (at least one digit, no leading
underscore). -/
def parseDigits : PyStr → Option Nat
  | [] => none
  | c :: rest =>
    match digitVal c with
    | some d => parseDigitsAux d rest
    | none => none

/-- Python `int(s)` on a string: strip whitespace, optional sign, ASCII
decimal digits with optional single underscores between digits; `none`
models a raised `ValueError`. -/
def pyInt (s : PyStr) : Option Int :=
  let t := ((s.dropWhile isPySpace).reverse.dropWhile isPySpace).reverse
  match t with
  | '+' :: ds => (parseDigits ds).map Int.ofNat
  | '-' :: ds => (parseDigits ds).map (fun n => -(n : Int))
  | ds => (parseDigits ds).map Int.ofNat

/-- Association-list lookup with decidable key equality (Python `d[k]` /
`k in d` on a dict whose insertion order is the list order). -/
def alookup {β : Type} (k : PyStr) : List (PyStr × β) → Option β
  | [] => none
  | (k', v) :: rest => if k' = k then some v else alookup k rest

/-- Python `d[k] = v` on a dict: overwrite in place if the key exists,
otherwise append. -/
def dictInsert {β : Type} (k : PyStr) (v : β) : List (PyStr × β) → List (PyStr × β)
  | [] => [(k, v)]
  | (k', v') :: rest => if k' = k then (k, v) :: rest else (k', v') :: dictInsert k v rest

/-- A cache entry: the value stored under an advisory id (`run`, lines 43-46). -/
structure Entry where
  when : PyStr
  synopsis : PyStr
deriving DecidableEq

/-- The cache: a Python dict from `fulladvisory` strings to entries. -/
abbrev Cache := List (PyStr × Entry)

/-- An advisory message as consumed by `run`/`notify`/`lgtm_fast_pr_for_errata`:
`fulladvisory`, `synopsis` and `when` are accessed by direct indexing, while
`errata_id`, `product` and `to` are accessed with `.get` (so they are
`Option`-valued in the model). -/
structure Message where
  fulladvisory : PyStr
  synopsis : PyStr
  when : PyStr
  errata_id : Option Int
  product : Option PyStr
  toState : Option PyStr
deriving DecidableEq

/-- An open pull request as surfaced by the GitHub API: number, title, body. -/
structure PR where
  number : Nat
  title : PyStr
  body : PyStr
deriving DecidableEq

/-- Observable side effects of one scheduler cycle. -/
inductive Event where
  /-- `notify(message, webhook)` was called for this message. -/
  | notifyEv (m : Message)
  /-- `lgtm_fast_pr_for_errata(message)` was called for this message. -/
  | reviewBotCall (m : Message)
  /-- `pr.create_issue_comment(msg)` posted `text` on PR `n`. -/
  | commentEv (n : Nat) (text : PyStr)
deriving DecidableEq

/-- External environment of one cycle: the `GITHUB_TOKEN` variable, the open
pull requests of the fixed repository, and whether posting a comment on a
given PR number succeeds (`false` models `create_issue_comment` raising). -/
structure Env where
  token : Option PyStr
  prs : List PR
  postOk : Nat → Bool

/-- The marker `ERRATA_MARKER = 'https://errata.devel.redhat.com/advisory/'`. -/
def ERRATA_MARKER : PyStr := pyStr "https://errata.devel.redhat.com/advisory/"

/-- The fixed approval comment text posted by `lgtm_fast_pr_for_errata`. -/
def APPROVE_TEXT : PyStr := pyStr "Autoapproving PR to fast after the errata has shipped\n/lgtm"

/-- `get_open_prs_to_fast(repo)`: keep open PRs whose title starts with
`"Enable "` and whose fourth space-separated token is `"fast"`; an
`IndexError` from `title.split(" ")[3]` (fewer than four tokens) is caught
by the `try`/`except` and the PR is skipped. -/
def get_open_prs_to_fast (prs : List PR) : List (Nat × PyStr) :=
  prs.filterMap fun pr =>
    if ¬ pyStartsWith (pyStr "Enable ") pr.title then none
    else
      match (pySplit ' ' pr.title)[3]? with
      | none => none
      | some tok => if tok = pyStr "fast" then some (pr.number, pr.body) else none

/-- `extract_errata_number_from_body(body)`: take the first line, keep the
space-separated tokens starting with `ERRATA_MARKER`, and parse the last
`/`-separated segment of the first such token as an integer; `None` when
there is no such token or `int()` raises `ValueError`. -/
def extract_errata_number_from_body (body : PyStr) : Option Int :=
  let first_line := (pySplit '\n' body).headD []
  let links := (pySplit ' ' first_line).filter fun x => pyStartsWith ERRATA_MARKER x
  match links with
  | [] => none
  | l :: _ => pyInt ((pySplit '/' l).getLastD [])

/-- Python truthiness of the `github_token` value (`if not github_token`):
absent or empty means falsy. -/
def tokenTruthy (token : Option PyStr) : Bool :=
  match token with
  | none => false
  | some t => ¬ t.isEmpty

/-- The skip test of the PR loop in `lgtm_fast_pr_for_errata` (line 137):
`not errata_num or errata_num != message.get('errata_id')` — the PR is
skipped when the extracted number is falsy (`None` or `0`) or differs from
the message's `errata_id`. -/
def prSkip (errata_id : Option Int) (body : PyStr) : Bool :=
  match extract_errata_number_from_body body with
  | none => true
  | some v => v = 0 || (match errata_id with
                        | none => true
                        | some e => v ≠ e)

/-- The `for pr_number, body in get_open_prs_to_fast(repo)` loop of
`lgtm_fast_pr_for_errata`: skip per `prSkip`, otherwise post the fixed
comment.  A failing `create_issue_comment` raises: the error is returned
and the loop is abandoned (events of later iterations never happen). -/
def lgtmLoop (postOk : Nat → Bool) (errata_id : Option Int) :
    List (Nat × PyStr) → List Event × Option PyStr
  | [] => ([], none)
  | (n, body) :: rest =>
    if prSkip errata_id body then lgtmLoop postOk errata_id rest
    else if postOk n then
      let r := lgtmLoop postOk errata_id rest
      (Event.commentEv n APPROVE_TEXT :: r.1, r.2)
    else
      ([], some (pyStr "create_issue_comment raised"))

/-- `lgtm_fast_pr_for_errata(message)`: no-op when `GITHUB_TOKEN` is unset or
empty; otherwise run the matching loop over the open PRs. -/
def lgtm_fast_pr_for_errata (env : Env) (message : Message) : List Event × Option PyStr :=
  if ¬ tokenTruthy env.token then ([], none)
  else lgtmLoop env.postOk message.errata_id (get_open_prs_to_fast env.prs)

/-- The skip test of `run` (line 39):
`cache and message['fulladvisory'] in cache or 'bug fix update' not in message['synopsis']`.
`cache` is truthy only when it is a non-`None`, non-empty dict. -/
def skipCond (cache : Option Cache) (m : Message) : Bool :=
  (match cache with
   | none => false
   | some c => ¬ c.isEmpty && (alookup m.fulladvisory c).isSome)
  || ¬ pyContains (pyStr "bug fix update") m.synopsis

/-- One iteration of the message loop in `run` (lines 38-46): skip per
`skipCond`; otherwise call `notify`, then `lgtm_fast_pr_for_errata` (whose
uncaught exception aborts the iteration before the cache update), then
record the message in the cache when the cache is not `None`.  Returns the
emitted events, the updated cache and the propagated error, if any. -/
def run_step (env : Env) (cache : Option Cache) (m : Message) :
    List Event × Option Cache × Option PyStr :=
  if skipCond cache m then ([], cache, none)
  else
    let r := lgtm_fast_pr_for_errata env m
    match r.2 with
    | some e => (Event.notifyEv m :: Event.reviewBotCall m :: r.1, cache, some e)
    | none =>
      let cache' :=
        match cache with
        | none => none
        | some c => some (dictInsert m.fulladvisory ⟨m.when, m.synopsis⟩ c)
      (Event.notifyEv m :: Event.reviewBotCall m :: r.1, cache', none)

/-- The full message loop of one poll cycle of `run`: process the polled
messages in order, stopping at the first uncaught exception (which
propagates out of the cycle). -/
def run_cycle (env : Env) (cache : Option Cache) :
    List Message → List Event × Option Cache × Option PyStr
  | [] => ([], cache, none)
  | m :: ms =>
    let r := run_step env cache m
    match r.2.2 with
    | some e => (r.1, r.2.1, some e)
    | none =>
      let r2 := run_cycle env r.2.1 ms
      (r.1 ++ r2.1, r2.2.1, r2.2.2)

/-- A decoded response of one feed page: the list of `raw_messages[i]['msg']`
records and the reported total page count `pages`. -/
structure FeedResponse where
  raw_messages : List Message
  pages : Nat

/-- The client-side filter of `poll` (line 75):
`message.get('product') == 'RHOSE' and message.get('to') == 'SHIPPED_LIVE'`. -/
def pollFilter (m : Message) : Bool :=
  m.product = some (pyStr "RHOSE") && m.toState = some (pyStr "SHIPPED_LIVE")

/-- The error-free page loop of `poll` (lines 61-79) against a feed that
answers page `p` with `responses p`: request the current page, yield its
filtered messages, stop once `page >= pages`, else advance to the next page.
The loop has no bound of its own, so it is modelled with explicit `fuel`;
the returned flag records whether the loop terminated within the fuel.
Returns (requested page numbers, yielded messages, finished). -/
def pollLoop (responses : Nat → FeedResponse) : Nat → Nat → List Nat × List Message × Bool
  | 0, _ => ([], [], false)
  | fuel + 1, page =>
    let resp := responses page
    let yielded := resp.raw_messages.filter pollFilter
    if resp.pages ≤ page then ([page], yielded, true)
    else
      let r := pollLoop responses fuel (page + 1)
      (page :: r.1, yielded ++ r.2.1, r.2.2)

/-- A fully consumed error-free `poll(...)` run: the page loop started at
page 1. -/
def poll (responses : Nat → FeedResponse) (fuel : Nat) : List Nat × List Message × Bool :=
  pollLoop responses fuel 1

/-- `int(period.total_seconds())` for a `timedelta` of `micros` microseconds:
truncation toward zero of `micros / 10^6` (the float is modelled as the exact
rational it represents). -/
def total_seconds_int (micros : Int) : Int := micros.sign * (micros.natAbs / 1000000 : Nat)

/-- The fixed query parameters `poll` sends on every page request
(lines 54-59); the 1-based `page` parameter is added per request and is
recorded separately by `pollLoop`. -/
structure QueryParams where
  delta : Int
  category : PyStr
  containsFilter : PyStr
  rows_per_page : Nat
deriving DecidableEq

/-- The parameter dict built by `poll(data_grepper, period)` (lines 54-59):
`delta` is `int(period.total_seconds())`, the category filter is `'errata'`,
the free-text filter is `'RHOSE'`, and the page size is 100. -/
def pollParams (periodMicros : Int) : QueryParams :=
  ⟨total_seconds_int periodMicros, pyStr "errata", pyStr "RHOSE", 100⟩

/-- The query parameters of the `poll(period=2*poll_period, ...)` invocation
in `run` (line 38), with `poll_period` given in microseconds. -/
def run_pollParams (pollPeriodMicros : Int) : QueryParams :=
  pollParams (2 * pollPeriodMicros)

/-- Normalization of a `datetime.timedelta` of `totalMicros` microseconds
into `(days, seconds, microseconds)` with `0 ≤ seconds < 86400` and
`0 ≤ microseconds < 10^6`, exactly as CPython's divmod-based `timedelta`
constructor computes it (`divmod` is floor division, so a negative total
borrows from the `days` field). -/
def tdNormalize (totalMicros : Int) : Int × Int × Int :=
  let us := totalMicros % 1000000
  let totalSecs := (totalMicros - us) / 1000000
  let s := totalSecs % 86400
  let d := (totalSecs - s) / 86400
  (d, s, us)

/-- The `timedelta.seconds` attribute of a `timedelta` of `totalMicros`
microseconds. -/
def tdSeconds (totalMicros : Int) : Int := (tdNormalize totalMicros).2.1

/-- The argument of `time.sleep` at line 50 of `run`:
`(next_time - datetime.datetime.now()).seconds`, where the remaining time
until the next wake-up instant is `remainingMicros` microseconds. -/
def run_sleep_amount (remainingMicros : Int) : Int := tdSeconds remainingMicros

/-- Whether a single event is neither a notify nor a review-bot invocation
for advisory `id` (comment events are unrelated to an advisory id). -/
def evAvoid (id : PyStr) : Event → Bool
  | Event.notifyEv m => m.fulladvisory ≠ id
  | Event.reviewBotCall m => m.fulladvisory ≠ id
  | Event.commentEv _ _ => true

/-- A Bool form of "no notify and no review-bot invocation for advisory
`id` occurs in the trace". -/
def eventsAvoid (id : PyStr) (evs : List Event) : Bool :=
  evs.all (evAvoid id)

@[simp] theorem eventsAvoid_nil (id : PyStr) : eventsAvoid id [] = true := rfl

@[simp] theorem eventsAvoid_cons (id : PyStr) (ev : Event) (evs : List Event) :
    eventsAvoid id (ev :: evs) = (evAvoid id ev && eventsAvoid id evs) := by
  simp [eventsAvoid]

@[simp] theorem eventsAvoid_append (id : PyStr) (a b : List Event) :
    eventsAvoid id (a ++ b) = (eventsAvoid id a && eventsAvoid id b) := by
  simp [eventsAvoid]

/-- A successful lookup implies the dict is non-empty. -/
theorem alookup_isEmpty_false {β : Type} {k : PyStr} {v : β} {l : List (PyStr × β)}
    (h : alookup k l = some v) : l.isEmpty = false := by
  cases l with
  | nil => simp [alookup] at h
  | cons a t => rfl

/-- Inserting under a different key does not change a lookup. -/
theorem alookup_dictInsert_ne {β : Type} (k id : PyStr) (v : β) (l : List (PyStr × β))
    (h : k ≠ id) : alookup id (dictInsert k v l) = alookup id l := by
  induction l with
  | nil => simp [dictInsert, alookup, h]
  | cons a t ih =>
    obtain ⟨k', v'⟩ := a
    by_cases hk : k' = k
    · subst hk
      simp [dictInsert, alookup, h]
    · simp [dictInsert, alookup, hk, ih]

/-- Every event the review-bot loop emits is a comment event, so the loop
never emits a notify or review-bot-invocation event. -/
theorem lgtmLoop_eventsAvoid (id : PyStr) (postOk : Nat → Bool) (eid : Option Int) :
    ∀ prs, eventsAvoid id (lgtmLoop postOk eid prs).1 = true := by
  intro prs
  induction prs with
  | nil => rfl
  | cons pr rest ih =>
    obtain ⟨n, body⟩ := pr
    by_cases hskip : prSkip eid body
    · simpa [lgtmLoop, hskip] using ih
    · by_cases hp : postOk n
      · simpa [lgtmLoop, hskip, hp, evAvoid] using ih
      · simp [lgtmLoop, hskip, hp]

/-- Every event `lgtm_fast_pr_for_errata` emits is a comment event. -/
theorem lgtm_eventsAvoid (id : PyStr) (env : Env) (m : Message) :
    eventsAvoid id (lgtm_fast_pr_for_errata env m).1 = true := by
  unfold lgtm_fast_pr_for_errata
  by_cases ht : tokenTruthy env.token
  · simp [ht, lgtmLoop_eventsAvoid]
  · simp [ht, eventsAvoid]

/-- When the message's advisory is already cached, `run_step` skips it. -/
theorem run_step_cached (env : Env) (c : Cache) (m : Message) (e : Entry)
    (h : alookup m.fulladvisory c = some e) :
    run_step env (some c) m = ([], some c, none) := by
  have hskip : skipCond (some c) m = true := by
    simp [skipCond, h, alookup_isEmpty_false h]
  simp [run_step, hskip]

/-- A cached entry under `id` survives one `run_step`, and the step emits no
notify or review-bot event for `id`. -/
theorem run_step_cached_invariant (env : Env) (c : Cache) (m : Message) (id : PyStr) (e : Entry)
    (h : alookup id c = some e) :
    eventsAvoid id (run_step env (some c) m).1 = true ∧
    ((run_step env (some c) m).2.1).map (alookup id) = some (alookup id c) ∧
    (run_step env (some c) m).2.1 ≠ none := by
  by_cases hskip : skipCond (some c) m
  · simp [run_step, hskip]
  · have hne : m.fulladvisory ≠ id := by
      intro heq
      have h2 : alookup m.fulladvisory c = some e := by rw [heq]; exact h
      exact hskip (by simp [skipCond, h2, alookup_isEmpty_false h2])
    cases herr : (lgtm_fast_pr_for_errata env m).2 with
    | some err =>
      simp [run_step, hskip, herr, evAvoid, hne, lgtm_eventsAvoid]
    | none =>
      simp [run_step, hskip, herr, evAvoid, hne, lgtm_eventsAvoid,
        alookup_dictInsert_ne _ _ _ _ hne]

/-- C1: For every advisory id already present as a key of the cache mapping,
processing a later message with that same `fulladvisory` in the scheduler
loop triggers neither `notify` nor the review-bot for that id
(`eventsAvoid id … = true`), and the cache entry for that id is unchanged
(the final cache is a dict whose lookup at `id` still yields the original
entry). -/
theorem claim_C1 (env : Env) (id : PyStr) (e : Entry) :
    ∀ (msgs : List Message) (c : Cache), alookup id c = some e →
      eventsAvoid id (run_cycle env (some c) msgs).1 = true ∧
      ((run_cycle env (some c) msgs).2.1).map (alookup id) = some (some e) := by
  intro msgs
  induction msgs with
  | nil =>
    intro c h
    simp [run_cycle, h]
  | cons m ms ih =>
    intro c h
    obtain ⟨hev, hmap, hne_none⟩ := run_step_cached_invariant env c m id e h
    obtain ⟨c', hc'⟩ := Option.ne_none_iff_exists'.mp hne_none
    have hlook : alookup id c' = some e := by
      rw [hc'] at hmap
      simp at hmap
      rw [hmap]
      exact h
    cases herr : (run_step env (some c) m).2.2 with
    | some err =>
      have hcyc : run_cycle env (some c) (m :: ms) =
          ((run_step env (some c) m).1, (run_step env (some c) m).2.1, some err) := by
        simp [run_cycle, herr]
      rw [hcyc]
      exact ⟨hev, by rw [hc']; simp [hlook]⟩
    | none =>
      obtain ⟨ihev, ihmap⟩ := ih c' hlook
      have hcyc : run_cycle env (some c) (m :: ms) =
          ((run_step env (some c) m).1 ++ (run_cycle env (run_step env (some c) m).2.1 ms).1,
           (run_cycle env (run_step env (some c) m).2.1 ms).2.1,
           (run_cycle env (run_step env (some c) m).2.1 ms).2.2) := by
        simp [run_cycle, herr]
      rw [hcyc, hc']
      exact ⟨by simp [hev, ihev], ihmap⟩

/-- C1 witness: with `"RHBA-2021:0001"` cached, a later message carrying the
same `fulladvisory` (and a matching synopsis) produces no events at all and
leaves the cached entry intact. -/
theorem claim_C1_witness :
    eventsAvoid (pyStr "RHBA-2021:0001")
        (run_cycle (Env.mk (some (pyStr "tok")) [] (fun _ => true))
          (some [(pyStr "RHBA-2021:0001", Entry.mk (pyStr "w") (pyStr "s"))])
          [Message.mk (pyStr "RHBA-2021:0001") (pyStr "x bug fix update") (pyStr "t")
            (some 1234) none none]).1 = true ∧
    ((run_cycle (Env.mk (some (pyStr "tok")) [] (fun _ => true))
          (some [(pyStr "RHBA-2021:0001", Entry.mk (pyStr "w") (pyStr "s"))])
          [Message.mk (pyStr "RHBA-2021:0001") (pyStr "x bug fix update") (pyStr "t")
            (some 1234) none none]).2.1).map (alookup (pyStr "RHBA-2021:0001"))
      = some (some (Entry.mk (pyStr "w") (pyStr "s"))) :=
  claim_C1 _ _ _ _ _ (by decide)

/-- C8: For every message whose synopsis does not contain the substring
`'bug fix update'` (case-sensitive), the scheduler loop skips it — no notify,
no review-bot, no cache insertion — for every possible cache state (`None`,
empty, or non-empty). -/
theorem claim_C8 (env : Env) (cache : Option Cache) (m : Message)
    (h : pyContains (pyStr "bug fix update") m.synopsis = false) :
    run_step env cache m = ([], cache, none) := by
  have hskip : skipCond cache m = true := by
    simp [skipCond, h]
  simp [run_step, hskip]

/-- C8 witness: a concrete security-update message is skipped against a
non-empty cache. -/
theorem claim_C8_witness :
    run_step (Env.mk (some (pyStr "tok")) [] (fun _ => true))
        (some [(pyStr "RHSA-2021:0002", Entry.mk (pyStr "w") (pyStr "s"))])
        (Message.mk (pyStr "RHSA-2021:0003") (pyStr "security update") (pyStr "t")
          (some 7) none none)
      = ([], some [(pyStr "RHSA-2021:0002", Entry.mk (pyStr "w") (pyStr "s"))], none) :=
  claim_C8 _ _ _ (by decide)

/-- The review-bot PR loop posts nothing when the message's `errata_id` is 0:
every extracted number is either falsy itself or differs from 0. -/
theorem lgtmLoop_zero (postOk : Nat → Bool) :
    ∀ prs, lgtmLoop postOk (some 0) prs = ([], none) := by
  intro prs
  induction prs with
  | nil => rfl
  | cons pr rest ih =>
    obtain ⟨n, body⟩ := pr
    have hskip : prSkip (some 0) body = true := by
      unfold prSkip
      cases extract_errata_number_from_body body with
      | none => rfl
      | some v =>
        by_cases hv : v = 0 <;> simp [hv]
    simp [lgtmLoop, hskip, ih]

/-- C9: For every message whose `errata_id` equals 0, the review-bot posts no
comment on any review request (and raises nothing), even when an open
request's body first line contains the errata URL token with trailing
number 0 — an extracted identifier of 0 is falsy in
`if not errata_num or …` and is treated the same as no match. -/
theorem claim_C9 (env : Env) (fa syn wh : PyStr) (prod toSt : Option PyStr) :
    lgtm_fast_pr_for_errata env (Message.mk fa syn wh (some 0) prod toSt) = ([], none) := by
  unfold lgtm_fast_pr_for_errata
  by_cases ht : tokenTruthy env.token
  · simp [ht, lgtmLoop_zero]
  · simp [ht]

/-- C2 counterexample: an exception raised while the review-bot posts its
comment (modelled by `postOk = false`) is NOT caught by the scheduler loop:
the cycle aborts with the error after the first message — the second message
is never notified — contradicting "caught and logged by the loop and does
not propagate out of the cycle".  The concrete cycle processes a matching
message against an open fast-promotion PR for errata 1234. -/
theorem claim_C2_counterexample :
    run_cycle
        (Env.mk (some (pyStr "tok"))
          [PR.mk 1 (pyStr "Enable X Y fast")
            (pyStr "See https://errata.devel.redhat.com/advisory/1234 for details\nmore text")]
          (fun _ => false))
        (some [])
        [Message.mk (pyStr "RHBA-2021:0001") (pyStr "x bug fix update") (pyStr "t")
          (some 1234) none none,
         Message.mk (pyStr "RHBA-2021:0002") (pyStr "y bug fix update") (pyStr "t")
          (some 9) none none]
      = ([Event.notifyEv (Message.mk (pyStr "RHBA-2021:0001") (pyStr "x bug fix update")
            (pyStr "t") (some 1234) none none),
          Event.reviewBotCall (Message.mk (pyStr "RHBA-2021:0001") (pyStr "x bug fix update")
            (pyStr "t") (some 1234) none none)],
         some [], some (pyStr "create_issue_comment raised")) := by
  decide

/-- C2 amended: for every processed (non-skipped) message the review-bot is
invoked unconditionally after `notify`; an `IndexError` while parsing an
individual review request's title inside `get_open_prs_to_fast` is caught
and that request skipped; but an exception raised inside the rest of the
review-bot step is NOT caught by the loop — it propagates out of the cycle,
aborting it before the cache update for that message. -/
theorem claim_C2_amended :
    (∀ (env : Env) (cache : Option Cache) (m : Message), skipCond cache m = false →
      ∃ evs, (run_step env cache m).1 = Event.notifyEv m :: Event.reviewBotCall m :: evs) ∧
    (∀ (pr : PR) (rest : List PR), (pySplit ' ' pr.title).length ≤ 3 →
      get_open_prs_to_fast (pr :: rest) = get_open_prs_to_fast rest) ∧
    (∀ (env : Env) (cache : Option Cache) (m : Message) (ms : List Message) (err : PyStr),
      skipCond cache m = false → (lgtm_fast_pr_for_errata env m).2 = some err →
      (run_cycle env cache (m :: ms)).2.2 = some err ∧
      (run_cycle env cache (m :: ms)).2.1 = cache) := by
  refine ⟨?_, ?_, ?_⟩
  · intro env cache m hskip
    cases herr : (lgtm_fast_pr_for_errata env m).2 with
    | some err => exact ⟨(lgtm_fast_pr_for_errata env m).1, by simp [run_step, hskip, herr]⟩
    | none => exact ⟨(lgtm_fast_pr_for_errata env m).1, by simp [run_step, hskip, herr]⟩
  · intro pr rest hlen
    have h3 : (pySplit ' ' pr.title)[3]? = none := by
      rw [List.getElem?_eq_none]
      omega
    simp [get_open_prs_to_fast, h3]
  · intro env cache m ms err hskip herr
    have hstep : run_step env cache m =
        (Event.notifyEv m :: Event.reviewBotCall m :: (lgtm_fast_pr_for_errata env m).1,
         cache, some err) := by
      simp [run_step, hskip, herr]
    constructor
    · simp [run_cycle, hstep]
    · simp [run_cycle, hstep]

/-- C2 amended witness: concrete instances of the three conjuncts — the
event order on a processed message, a short-titled PR being skipped, and a
posting failure aborting the concrete two-message cycle with the cache left
as it was. -/
theorem claim_C2_amended_witness :
    (∃ evs, (run_step
        (Env.mk (some (pyStr "tok"))
          [PR.mk 1 (pyStr "Enable X Y fast")
            (pyStr "See https://errata.devel.redhat.com/advisory/1234 for details\nmore text")]
          (fun _ => false))
        (some [])
        (Message.mk (pyStr "RHBA-2021:0001") (pyStr "x bug fix update") (pyStr "t")
          (some 1234) none none)).1
      = Event.notifyEv (Message.mk (pyStr "RHBA-2021:0001") (pyStr "x bug fix update")
            (pyStr "t") (some 1234) none none)
        :: Event.reviewBotCall (Message.mk (pyStr "RHBA-2021:0001") (pyStr "x bug fix update")
            (pyStr "t") (some 1234) none none) :: evs) ∧
    get_open_prs_to_fast [PR.mk 7 (pyStr "Enable X fast") (pyStr "b")] = get_open_prs_to_fast [] ∧
    (run_cycle
        (Env.mk (some (pyStr "tok"))
          [PR.mk 1 (pyStr "Enable X Y fast")
            (pyStr "See https://errata.devel.redhat.com/advisory/1234 for details\nmore text")]
          (fun _ => false))
        (some [])
        [Message.mk (pyStr "RHBA-2021:0001") (pyStr "x bug fix update") (pyStr "t")
          (some 1234) none none]).2.2
      = some (pyStr "create_issue_comment raised") :=
  ⟨claim_C2_amended.1 _ _ _ (by decide),
   claim_C2_amended.2.1 _ [] (by decide),
   (claim_C2_amended.2.2 _ _ _ [] _ (by decide) (by decide)).1⟩

/-- The open fast-promotion PR of the C7 scenario: number 1, title
`"Enable X Y fast"`, and the given body. -/
def fastPR (body : PyStr) : PR := PR.mk 1 (pyStr "Enable X Y fast") body

/-- A one-PR review-bot environment with a set `GITHUB_TOKEN` and successful
comment posting. -/
def onePrEnv (body : PyStr) (postOk : Nat → Bool) : Env :=
  Env.mk (some (pyStr "tok")) [fastPR body] postOk

/-- The body of the C7 scenario. -/
def c7Body : PyStr :=
  pyStr "See https://errata.devel.redhat.com/advisory/1234 for details\nmore text"

/-- A message carrying the given `errata_id`. -/
def c7Msg (eid : Int) : Message :=
  Message.mk (pyStr "RHBA-2021:0001") (pyStr "bug fix update") (pyStr "t") (some eid) none none

/-- C7: For an open review request with title `"Enable X Y fast"` and body
`"See https://errata.devel.redhat.com/advisory/1234 for details\nmore text"`:
a message with `errata_id = 1234` causes exactly one approval comment with
the fixed text on that request; a message with `errata_id = 5678` causes
zero comments; and a body whose first line contains no token starting with
the errata URL marker causes zero comments and raises no exception. -/
theorem claim_C7 :
    lgtm_fast_pr_for_errata (onePrEnv c7Body (fun _ => true)) (c7Msg 1234)
      = ([Event.commentEv 1 APPROVE_TEXT], none) ∧
    lgtm_fast_pr_for_errata (onePrEnv c7Body (fun _ => true)) (c7Msg 5678) = ([], none) ∧
    ∀ (body : PyStr) (postOk : Nat → Bool) (eid : Int),
      (∀ t ∈ pySplit ' ' ((pySplit '\n' body).headD []), pyStartsWith ERRATA_MARKER t = false) →
      lgtm_fast_pr_for_errata (onePrEnv body postOk) (c7Msg eid) = ([], none) := by
  refine ⟨by decide, by decide, ?_⟩
  intro body postOk eid h
  have hext : extract_errata_number_from_body body = none := by
    unfold extract_errata_number_from_body
    have hfil : (pySplit ' ' ((pySplit '\n' body).headD [])).filter
        (fun x => pyStartsWith ERRATA_MARKER x) = [] := by
      rw [List.filter_eq_nil_iff]
      intro a ha
      simp [h a ha]
    simp only [hfil]
  have hopen : get_open_prs_to_fast [fastPR body] = [(1, body)] := rfl
  have hskip : prSkip (some eid) body = true := by
    unfold prSkip
    rw [hext]
  unfold lgtm_fast_pr_for_errata onePrEnv
  simp only [Env.mk.injEq]
  rw [if_neg (by simp [tokenTruthy, pyStr])]
  rw [hopen]
  have hskip' : prSkip (c7Msg eid).errata_id body = true := hskip
  simp [lgtmLoop, hskip']

/-- C7 witness: the universally quantified third part of C7 at a concrete
body with no errata link. -/
theorem claim_C7_witness :
    lgtm_fast_pr_for_errata (onePrEnv (pyStr "no links here\nmore") (fun _ => true)) (c7Msg 1234)
      = ([], none) :=
  claim_C7.2.2 (pyStr "no links here\nmore") (fun _ => true) 1234 (by decide)

/-- C10: For every feed message record that lacks the `product` field or the
`to` field, `poll` drops the message silently (it is never yielded) — field
access uses `.get` with a `None` default, which compares unequal to the
required string, so no exception can arise. -/
theorem claim_C10 (responses : Nat → FeedResponse) (fuel page : Nat) (m : Message)
    (h : m.product = none ∨ m.toState = none) :
    m ∉ (pollLoop responses fuel page).2.1 := by
  have hf : pollFilter m = false := by
    rcases h with h | h <;> simp [pollFilter, h]
  induction fuel generalizing page with
  | zero => simp [pollLoop]
  | succ f ih =>
    by_cases hle : (responses page).pages ≤ page
    · simp [pollLoop, hle, List.mem_filter, hf]
    · simp only [pollLoop, if_neg hle, List.mem_append, List.mem_filter, hf]
      intro hmem
      rcases hmem with hmem | hmem
      · exact absurd hmem.2 (by simp)
      · exact ih (page + 1) hmem

/-- C10 witness: a message lacking `product` that sits in the feed's only
page is not yielded. -/
theorem claim_C10_witness :
    (Message.mk (pyStr "a") (pyStr "s") (pyStr "w") none none (some (pyStr "SHIPPED_LIVE")))
      ∉ (pollLoop
          (fun _ => FeedResponse.mk
            [Message.mk (pyStr "a") (pyStr "s") (pyStr "w") none none (some (pyStr "SHIPPED_LIVE"))] 1)
          3 1).2.1 :=
  claim_C10 _ 3 1 _ (Or.inl rfl)

/-- Against a feed that constantly reports `P` total pages, the page loop
started at page `page ≤ P` requests exactly pages `page, …, P` and stops. -/
theorem pollLoop_const_pages (responses : Nat → FeedResponse) (P : Nat)
    (hconst : ∀ p, (responses p).pages = P) :
    ∀ (fuel page : Nat), 1 ≤ page → page ≤ P → P - page < fuel →
      (pollLoop responses fuel page).1 = List.range' page (P - page + 1) ∧
      (pollLoop responses fuel page).2.2 = true := by
  intro fuel
  induction fuel with
  | zero => intro page h1 h2 h3; omega
  | succ f ih =>
    intro page h1 h2 h3
    by_cases hle : (responses page).pages ≤ page
    · have hpage : page = P := by
        have := hconst page
        omega
      subst hpage
      constructor
      · simp [pollLoop, hle, Nat.sub_self, List.range']
      · simp [pollLoop, hle]
    · have hlt : page < P := by
        have := hconst page
        omega
      obtain ⟨ih1, ih2⟩ := ih (page + 1) (by omega) (by omega) (by omega)
      constructor
      · rw [show P - page + 1 = (P - (page + 1) + 1) + 1 by omega]
        simp only [pollLoop, if_neg hle]
        rw [ih1]
        rfl
      · simp only [pollLoop, if_neg hle]
        exact ih2

/-- C5 counterexample: a feed response reporting `pages = 0` still costs one
page request (the request that fetched it), so "exactly P page requests"
fails at `P = 0`: the poller issues 1 request, not 0. -/
theorem claim_C5_counterexample :
    (poll (fun _ => FeedResponse.mk [] 0) 5).1 = [1] ∧
    (poll (fun _ => FeedResponse.mk [] 0) 5).2.2 = true ∧
    ([1] : List Nat).length ≠ 0 := by
  refine ⟨by decide, by decide, by decide⟩

/-- C5 amended: for every total page count `P ≥ 1` constantly reported by
the feed, a fully consumed error-free `poll` issues exactly the `P` page
requests `1, …, P` and then stops; a feed reporting `P = 0` pages instead
costs the single request that fetched that count. -/
theorem claim_C5_amended (responses : Nat → FeedResponse) (P fuel : Nat)
    (hP : 1 ≤ P) (hconst : ∀ p, (responses p).pages = P) (hfuel : P ≤ fuel) :
    (poll responses fuel).1 = List.range' 1 P ∧
    (poll responses fuel).1.length = P ∧
    (poll responses fuel).2.2 = true := by
  obtain ⟨h1, h2⟩ := pollLoop_const_pages responses P hconst fuel 1 le_rfl hP (by omega)
  rw [show P - 1 + 1 = P by omega] at h1
  exact ⟨h1, by rw [poll, h1]; simp, h2⟩

/-- C5 amended witness: a constant three-page feed polled with enough fuel
requests exactly pages 1, 2, 3. -/
theorem claim_C5_amended_witness :
    (poll (fun _ => FeedResponse.mk [] 3) 5).1 = List.range' 1 3 ∧
    (poll (fun _ => FeedResponse.mk [] 3) 5).1.length = 3 ∧
    (poll (fun _ => FeedResponse.mk [] 3) 5).2.2 = true :=
  claim_C5_amended _ 3 5 (by omega) (fun _ => rfl) (by omega)

/-- `int(timedelta.total_seconds())` of a whole number of microseconds is
the truncated quotient; on a natural number of microseconds it is plain
division. -/
theorem total_seconds_int_ofNat (n : Nat) :
    total_seconds_int (n : Int) = ((n / 1000000 : Nat) : Int) := by
  cases n with
  | zero => rfl
  | succ m =>
    have h1 : Int.sign ((m + 1 : Nat) : Int) = 1 :=
      Int.sign_eq_one_of_pos (by positivity)
    simp [total_seconds_int, h1]
    rw [abs_of_nonneg (by positivity)]

/-- C4 counterexample: `poll(period)` with a 10-second period sends
`delta = 10`, not `2 × 10`: the doubling happens in `run`'s call site, not
inside `poll`. -/
theorem claim_C4_counterexample :
    (pollParams 10000000).delta = 10 ∧ (10 : Int) ≠ 2 * 10 := by
  refine ⟨by decide, by decide⟩

/-- C4 amended: `poll(period)` issues feed queries whose `delta` parameter
equals `period` itself expressed in whole seconds (truncated); it is `run`
that invokes `poll` with `period = 2 * poll_period` (line 38), so the
queries the scheduler issues carry `delta = 2 × poll_period` in whole
seconds. -/
theorem claim_C4_amended (s : Nat) :
    (pollParams ((s : Int) * 1000000)).delta = (s : Int) ∧
    (run_pollParams ((s : Int) * 1000000)).delta = 2 * (s : Int) := by
  constructor
  · show total_seconds_int ((s : Int) * 1000000) = (s : Int)
    rw [show ((s : Int) * 1000000) = ((s * 1000000 : Nat) : Int) by push_cast; ring]
    rw [total_seconds_int_ofNat]
    congr 1
    omega
  · show total_seconds_int (2 * ((s : Int) * 1000000)) = 2 * (s : Int)
    rw [show (2 * ((s : Int) * 1000000)) = ((2 * s * 1000000 : Nat) : Int) by push_cast; ring]
    rw [total_seconds_int_ofNat]
    push_cast
    omega

/-- C3 counterexample: with the next-wake-up instant one second in the past
(remaining time −10^6 microseconds, a negative duration), the loop sleeps
`timedelta.seconds = 86399` seconds — almost a full day — not zero:
`timedelta` normalization borrows a day, so `.seconds` of a negative
duration is large, and sleeping is not skipped. -/
theorem claim_C3_counterexample :
    (-1000000 : Int) < 0 ∧ run_sleep_amount (-1000000) = 86399 ∧ (86399 : Int) ≠ 0 := by
  refine ⟨by decide, by decide, by decide⟩

/-- C3 amended: whenever the computed next-wake-up instant is in the past by
at most one day at the end of a cycle, the loop sleeps for
`86400 + ⌊remaining/10^6⌋` seconds (the `seconds` field of the normalized
negative `timedelta`) before the next poll — e.g. 86399 seconds for a
one-second deficit — rather than skipping the sleep. -/
theorem claim_C3_amended (T : Int) (h1 : -86400000000 ≤ T) (h2 : T < 0) :
    run_sleep_amount T = 86400 + T / 1000000 := by
  show ((T - T % 1000000) / 1000000) % 86400 = 86400 + T / 1000000
  omega

/-- C3 amended witness: the amended formula at a one-second deficit. -/
theorem claim_C3_amended_witness :
    (-86400000000 : Int) ≤ -1000000 ∧
    run_sleep_amount (-1000000) = 86400 + (-1000000 : Int) / 1000000 :=
  ⟨by decide, claim_C3_amended (-1000000) (by decide) (by decide)⟩

/-- Lowercase hex digit character, as CPython's `'\\u{0:04x}'` formatting
uses. -/
def hexDigitChar (n : Nat) : Char :=
  if n < 10 then Char.ofNat (48 + n) else Char.ofNat (87 + n)

/-- Four lowercase hex digits of `n < 0x10000`. -/
def toHex4 (n : Nat) : PyStr :=
  [hexDigitChar (n / 4096 % 16), hexDigitChar (n / 256 % 16),
   hexDigitChar (n / 16 % 16), hexDigitChar (n % 16)]

/-- CPython's `json` string escaping with `ensure_ascii=True` for one
character: the two-character escapes for backslash, quote, backspace,
formfeed, newline, carriage return and tab; printable ASCII
(`0x20 ≤ c ≤ 0x7e`) verbatim; any other scalar below `0x10000` as
`\\uXXXX`; and astral characters as a surrogate pair. -/
def encodeJChar (c : Char) : PyStr :=
  if c = '\\' then ['\\', '\\']
  else if c = '\"' then ['\\', '\"']
  else if c = '\x08' then ['\\', 'b']
  else if c = '\x0c' then ['\\', 'f']
  else if c = '\n' then ['\\', 'n']
  else if c = '\r' then ['\\', 'r']
  else if c = '\t' then ['\\', 't']
  else if 0x20 ≤ c.toNat ∧ c.toNat < 0x7f then [c]
  else if c.toNat < 0x10000 then '\\' :: 'u' :: toHex4 c.toNat
  else
    ('\\' :: 'u' :: toHex4 (0xd800 + (c.toNat - 0x10000) / 0x400)) ++
    ('\\' :: 'u' :: toHex4 (0xdc00 + (c.toNat - 0x10000) % 0x400))

/-- Escape every character of a string body. -/
def encodeJList : PyStr → PyStr
  | [] => []
  | c :: s => encodeJChar c ++ encodeJList s

/-- A JSON string literal: quote, escaped body, quote. -/
def encodeJString (s : PyStr) : PyStr := '\"' :: (encodeJList s ++ ['\"'])

/-- Python string `<` comparison: lexicographic on code points. -/
def pyStrLt : PyStr → PyStr → Bool
  | [], [] => false
  | [], _ :: _ => true
  | _ :: _, [] => false
  | a :: as', b :: bs =>
    if a.toNat < b.toNat then true
    else if b.toNat < a.toNat then false
    else pyStrLt as' bs

/-- Insert an item into a key-sorted association list. -/
def insertSorted (x : PyStr × Entry) : Cache → Cache
  | [] => [x]
  | y :: ys => if pyStrLt y.1 x.1 then y :: insertSorted x ys else x :: y :: ys

/-- Sort a cache by key, as `json.dump(…, sort_keys=True)` orders the
serialized items (keys of a Python dict are distinct, so any sort agrees
with Python's). -/
def sortCache : Cache → Cache
  | [] => []
  | x :: xs => insertSorted x (sortCache xs)

/-- The serialization of one cache entry value at depth 1, as
`json.dump(…, sort_keys=True, indent=2)` lays it out:
`\x7b\n    "synopsis": …,\n    "when": …\n  \x7d`. -/
def dumpEntry (e : Entry) : PyStr :=
  pyStr "\x7b\n    " ++ encodeJString (pyStr "synopsis") ++ pyStr ": " ++
    encodeJString e.synopsis ++
  pyStr ",\n    " ++ encodeJString (pyStr "when") ++ pyStr ": " ++
    encodeJString e.when ++
  pyStr "\n  \x7d"

/-- The comma-separated serialized items of a non-empty cache, each indented
by two spaces. -/
def dumpItems : Cache → PyStr
  | [] => []
  | [(k, e)] => pyStr "  " ++ encodeJString k ++ pyStr ": " ++ dumpEntry e
  | (k, e) :: rest =>
    pyStr "  " ++ encodeJString k ++ pyStr ": " ++ dumpEntry e ++ pyStr ",\n" ++ dumpItems rest

/-- `json.dump(cache, f, sort_keys=True, indent=2)`: the exact file contents
`save` writes for a given cache. -/
def json_dump_cache (c : Cache) : PyStr :=
  match sortCache c with
  | [] => pyStr "\x7b\x7d"
  | items => pyStr "\x7b\n" ++ dumpItems items ++ pyStr "\n\x7d"

/-- Value of a hex digit in either case, as the JSON `\\uXXXX` scanner
accepts. -/
def hexVal (c : Char) : Option Nat :=
  if '0' ≤ c ∧ c ≤ '9' then some (c.toNat - 48)
  else if 'a' ≤ c ∧ c ≤ 'f' then some (c.toNat - 87)
  else if 'A' ≤ c ∧ c ≤ 'F' then some (c.toNat - 55)
  else none

/-- The two-character JSON escapes (`\\u` is handled separately). -/
def escChar (e : Char) : Option Char :=
  if e = '\"' then some '\"'
  else if e = '\\' then some '\\'
  else if e = '/' then some '/'
  else if e = 'b' then some '\x08'
  else if e = 'f' then some '\x0c'
  else if e = 'n' then some '\n'
  else if e = 'r' then some '\r'
  else if e = 't' then some '\t'
  else none

/-- JSON whitespace accepted between tokens by `json.load`. -/
def jsonWs (c : Char) : Bool := c = ' ' || c = '\t' || c = '\n' || c = '\r'

/-- Drop JSON whitespace. -/
def skipWs (s : PyStr) : PyStr := s.dropWhile jsonWs

/-- Decode a JSON `\\uXXXX` escape, `s` starting right after the `\\u`:
four hex digits; a high surrogate must be followed by a `\\uXXXX` low
surrogate and the pair is combined, as CPython's `scanstring` does.  A lone
surrogate escape (which Python would keep as an unpaired surrogate, a value
`Char` cannot carry) is rejected — such sequences never occur in
`json_dump_cache` output. -/
def parseU (s : PyStr) : Option (Char × PyStr) :=
  match s with
  | a :: b :: c :: d :: rest3 =>
    match hexVal a, hexVal b, hexVal c, hexVal d with
    | some va, some vb, some vc, some vd =>
      let v := va * 4096 + vb * 256 + vc * 16 + vd
      if 0xd800 ≤ v ∧ v ≤ 0xdbff then
        match rest3 with
        | b1 :: u1 :: a2 :: b2 :: c2 :: d2 :: rest4 =>
          if b1 = '\\' ∧ u1 = 'u' then
            match hexVal a2, hexVal b2, hexVal c2, hexVal d2 with
            | some wa, some wb, some wc, some wd =>
              let w := wa * 4096 + wb * 256 + wc * 16 + wd
              if 0xdc00 ≤ w ∧ w ≤ 0xdfff then
                some (Char.ofNat (0x10000 + (v - 0xd800) * 0x400 + (w - 0xdc00)), rest4)
              else none
            | _, _, _, _ => none
          else none
        | _ => none
      else if 0xdc00 ≤ v ∧ v ≤ 0xdfff then none
      else some (Char.ofNat v, rest3)
    | _, _, _, _ => none
  | _ => none

/-- Decode one string character whose first input character is `ch` (already
known not to be the closing quote) and whose remaining input is `rest`: a
backslash introduces a two-character escape or a `\\uXXXX` escape, anything
else stands for itself. -/
def parseJChar (ch : Char) (rest : PyStr) : Option (Char × PyStr) :=
  if ch = '\\' then
    match rest with
    | [] => none
    | e :: rest2 =>
      if e = 'u' then parseU rest2
      else
        match escChar e with
        | some c2 => some (c2, rest2)
        | none => none
  else some (ch, rest)

/-- CPython's `scanstring` after the opening quote: returns the decoded
string body and the input remaining after the closing quote.  Each step
consumes at least one input character, so the scanner is modelled with
structural recursion on a fuel bound; `parseJString` instantiates the fuel
with the input length, which can never run out mid-parse. -/
def parseJStringContent (fuel : Nat) (s : PyStr) : Option (PyStr × PyStr) :=
  match fuel with
  | 0 => none
  | fuel + 1 =>
    match s with
    | [] => none
    | ch :: rest =>
      if ch = '\"' then some ([], rest)
      else
        match parseJChar ch rest with
        | none => none
        | some (c2, r) => (parseJStringContent fuel r).map (fun p => (c2 :: p.1, p.2))

/-- Scan a JSON string body (the opening quote already consumed). -/
def parseJString (s : PyStr) : Option (PyStr × PyStr) :=
  parseJStringContent (s.length + 1) s

/-- The member loop of the JSON object scanner for an object whose values
are strings: parse `"key": "value"` pairs separated by commas up to and
including the closing brace.  Each iteration consumes input, so the fuel —
instantiated with the input length — never runs out on real parses. -/
def parseStrPairs (fuel : Nat) (s : PyStr) : Option (List (PyStr × PyStr) × PyStr) :=
  match fuel with
  | 0 => none
  | fuel + 1 =>
    match skipWs s with
    | [] => none
    | ch :: r =>
      if ch = '\"' then
        match parseJString r with
        | none => none
        | some (k, r2) =>
          match skipWs r2 with
          | [] => none
          | c1 :: r3 =>
            if c1 = ':' then
              match skipWs r3 with
              | [] => none
              | c2 :: r4 =>
                if c2 = '\"' then
                  match parseJString r4 with
                  | none => none
                  | some (v, r5) =>
                    match skipWs r5 with
                    | [] => none
                    | c3 :: r6 =>
                      if c3 = ',' then
                        (parseStrPairs fuel r6).map (fun p => ((k, v) :: p.1, p.2))
                      else if c3 = '\x7d' then some ([(k, v)], r6)
                      else none
                else none
            else none
      else none

/-- Parse one cache entry value: an object with exactly the two string
fields `"synopsis"` and `"when"` (in either order).  This is `json.load`'s
object scanner specialized to the cache schema: any other value shape would
load as a Python dict the `Cache` type cannot carry, and never occurs in
`json_dump_cache` output. -/
def parseEntryObj (fuel : Nat) (s : PyStr) : Option (Entry × PyStr) :=
  match skipWs s with
  | [] => none
  | ch :: r =>
    if ch = '\x7b' then
      match skipWs r with
      | [] => none
      | c1 :: _ =>
        if c1 = '\x7d' then none
        else
          match parseStrPairs fuel r with
          | none => none
          | some (pairs, rest) =>
            if pairs.length = 2 then
              match alookup (pyStr "synopsis") pairs, alookup (pyStr "when") pairs with
              | some syn, some wh => some (Entry.mk wh syn, rest)
              | _, _ => none
            else none
    else none

/-- The member loop of the JSON object scanner for the top-level cache
object: `"advisory": <entry object>` pairs separated by commas up to and
including the closing brace. -/
def parseCacheItems (fuel : Nat) (s : PyStr) : Option (Cache × PyStr) :=
  match fuel with
  | 0 => none
  | fuel + 1 =>
    match skipWs s with
    | [] => none
    | ch :: r =>
      if ch = '\"' then
        match parseJString r with
        | none => none
        | some (k, r2) =>
          match skipWs r2 with
          | [] => none
          | c1 :: r3 =>
            if c1 = ':' then
              match parseEntryObj fuel r3 with
              | none => none
              | some (e, r4) =>
                match skipWs r4 with
                | [] => none
                | c2 :: r5 =>
                  if c2 = ',' then
                    (parseCacheItems fuel r5).map (fun p => ((k, e) :: p.1, p.2))
                  else if c2 = '\x7d' then some ([(k, e)], r5)
                  else none
            else none
      else none

/-- `json.load` of a cache file: leading whitespace, a top-level object of
entry objects, trailing whitespace, end of input.  `none` models a raised
decode error. -/
def json_load_cache (s : PyStr) : Option Cache :=
  match skipWs s with
  | [] => none
  | ch :: r =>
    if ch = '\x7b' then
      match skipWs r with
      | [] => none
      | c1 :: r2 =>
        if c1 = '\x7d' then (if skipWs r2 = [] then some [] else none)
        else
          match parseCacheItems (s.length + 1) r with
          | some (items, rest) => if skipWs rest = [] then some items else none
          | none => none
    else none

/-- `save(path, cache)`: overwrite the file at `path` with the serialized
cache; the file system is a mapping from paths to contents. -/
def save (fs : PyStr → Option PyStr) (path : PyStr) (cache : Cache) : PyStr → Option PyStr :=
  fun p => if p = path then some (json_dump_cache cache) else fs p

/-- `load(path)`: an absent file (`FileNotFoundError`) yields the empty
dict; otherwise the contents are JSON-decoded (`none` models a raised
decode error, which `load` does not catch). -/
def load (fs : PyStr → Option PyStr) (path : PyStr) : Option Cache :=
  match fs path with
  | none => some []
  | some content => json_load_cache content

/-- Hex digits written by `toHex4` read back as their value. -/
theorem hexVal_hexDigitChar (n : Nat) (h : n < 16) : hexVal (hexDigitChar n) = some n := by
  interval_cases n <;> decide

theorem parseU_toHex4 (n : Nat) (hn : n < 0x10000) (hs : ¬ (0xd800 ≤ n ∧ n ≤ 0xdfff))
    (rest : PyStr) : parseU (toHex4 n ++ rest) = some (Char.ofNat n, rest) := by
  have e1 := hexVal_hexDigitChar (n / 4096 % 16) (by omega)
  have e2 := hexVal_hexDigitChar (n / 256 % 16) (by omega)
  have e3 := hexVal_hexDigitChar (n / 16 % 16) (by omega)
  have e4 := hexVal_hexDigitChar (n % 16) (by omega)
  unfold toHex4
  simp only [List.cons_append, List.nil_append]
  unfold parseU
  simp only [e1, e2, e3, e4]
  rw [show n / 4096 % 16 * 4096 + n / 256 % 16 * 256 + n / 16 % 16 * 16 + n % 16 = n
      from by omega]
  rw [if_neg (by omega), if_neg (by omega)]

theorem parseU_pair (hi lo : Nat) (hhi : 0xd800 ≤ hi ∧ hi ≤ 0xdbff)
    (hlo : 0xdc00 ≤ lo ∧ lo ≤ 0xdfff) (rest : PyStr) :
    parseU (toHex4 hi ++ ('\\' :: 'u' :: (toHex4 lo ++ rest))) =
    some (Char.ofNat (0x10000 + (hi - 0xd800) * 0x400 + (lo - 0xdc00)), rest) := by
  have e1 := hexVal_hexDigitChar (hi / 4096 % 16) (by omega)
  have e2 := hexVal_hexDigitChar (hi / 256 % 16) (by omega)
  have e3 := hexVal_hexDigitChar (hi / 16 % 16) (by omega)
  have e4 := hexVal_hexDigitChar (hi % 16) (by omega)
  have f1 := hexVal_hexDigitChar (lo / 4096 % 16) (by omega)
  have f2 := hexVal_hexDigitChar (lo / 256 % 16) (by omega)
  have f3 := hexVal_hexDigitChar (lo / 16 % 16) (by omega)
  have f4 := hexVal_hexDigitChar (lo % 16) (by omega)
  unfold toHex4
  simp only [List.cons_append, List.nil_append]
  unfold parseU
  simp only [e1, e2, e3, e4, f1, f2, f3, f4]
  rw [show hi / 4096 % 16 * 4096 + hi / 256 % 16 * 256 + hi / 16 % 16 * 16 + hi % 16 = hi
      from by omega]
  rw [if_pos (by omega : 0xd800 ≤ hi ∧ hi ≤ 0xdbff)]
  rw [if_pos (⟨trivial, trivial⟩ : True ∧ True)]
  rw [show lo / 4096 % 16 * 4096 + lo / 256 % 16 * 256 + lo / 16 % 16 * 16 + lo % 16 = lo
      from by omega]
  rw [if_pos (by omega : 0xdc00 ≤ lo ∧ lo ≤ 0xdfff)]

theorem parseJChar_encodeJChar (c : Char) (rest : PyStr) :
    ∃ ch0 tl, encodeJChar c = ch0 :: tl ∧ ch0 ≠ '\"' ∧
      parseJChar ch0 (tl ++ rest) = some (c, rest) := by
  have hvalid : c.toNat < 0xd800 ∨ (0xe000 ≤ c.toNat ∧ c.toNat < 0x110000) := c.valid
  by_cases h1 : c = '\\'
  · exact ⟨'\\', ['\\'], by rw [h1]; rfl, by decide, by rw [h1]; rfl⟩
  by_cases h2 : c = '\"'
  · exact ⟨'\\', ['\"'], by rw [h2]; rfl, by decide, by rw [h2]; rfl⟩
  by_cases h3 : c = '\x08'
  · exact ⟨'\\', ['b'], by rw [h3]; rfl, by decide, by rw [h3]; rfl⟩
  by_cases h4 : c = '\x0c'
  · exact ⟨'\\', ['f'], by rw [h4]; rfl, by decide, by rw [h4]; rfl⟩
  by_cases h5 : c = '\n'
  · exact ⟨'\\', ['n'], by rw [h5]; rfl, by decide, by rw [h5]; rfl⟩
  by_cases h6 : c = '\r'
  · exact ⟨'\\', ['r'], by rw [h6]; rfl, by decide, by rw [h6]; rfl⟩
  by_cases h7 : c = '\t'
  · exact ⟨'\\', ['t'], by rw [h7]; rfl, by decide, by rw [h7]; rfl⟩
  by_cases h8 : 0x20 ≤ c.toNat ∧ c.toNat < 0x7f
  · refine ⟨c, [], ?_, h2, ?_⟩
    · unfold encodeJChar
      rw [if_neg h1, if_neg h2, if_neg h3, if_neg h4, if_neg h5, if_neg h6, if_neg h7, if_pos h8]
    · rw [List.nil_append]
      unfold parseJChar
      rw [if_neg h1]
  by_cases h9 : c.toNat < 0x10000
  · refine ⟨'\\', 'u' :: toHex4 c.toNat, ?_, by decide, ?_⟩
    · unfold encodeJChar
      rw [if_neg h1, if_neg h2, if_neg h3, if_neg h4, if_neg h5, if_neg h6, if_neg h7,
        if_neg h8, if_pos h9]
    · show parseJChar '\\' ('u' :: (toHex4 c.toNat ++ rest)) = some (c, rest)
      unfold parseJChar
      rw [if_pos rfl]
      have hsur : ¬ (0xd800 ≤ c.toNat ∧ c.toNat ≤ 0xdfff) := by
        rcases hvalid with h | ⟨ha, hb⟩ <;> omega
      simp only [reduceIte]
      rw [parseU_toHex4 c.toNat h9 hsur rest, Char.ofNat_toNat]
  · refine ⟨'\\', 'u' :: (toHex4 (0xd800 + (c.toNat - 0x10000) / 0x400) ++
      ('\\' :: 'u' :: toHex4 (0xdc00 + (c.toNat - 0x10000) % 0x400))), ?_, by decide, ?_⟩
    · unfold encodeJChar
      rw [if_neg h1, if_neg h2, if_neg h3, if_neg h4, if_neg h5, if_neg h6, if_neg h7,
        if_neg h8, if_neg h9]
      simp [List.append_assoc]
    · have h10 : 0x10000 ≤ c.toNat := by omega
      have h11 : c.toNat < 0x110000 := by
        rcases hvalid with h | ⟨ha, hb⟩ <;> omega
      show parseJChar '\\' ('u' :: ((toHex4 (0xd800 + (c.toNat - 0x10000) / 0x400) ++
        ('\\' :: 'u' :: toHex4 (0xdc00 + (c.toNat - 0x10000) % 0x400))) ++ rest)) = some (c, rest)
      unfold parseJChar
      rw [if_pos rfl]
      simp only [reduceIte]
      rw [List.append_assoc, List.cons_append, List.cons_append]
      rw [parseU_pair (0xd800 + (c.toNat - 0x10000) / 0x400)
            (0xdc00 + (c.toNat - 0x10000) % 0x400) (by omega) (by omega) rest]
      rw [show 0x10000 + (0xd800 + (c.toNat - 0x10000) / 0x400 - 0xd800) * 0x400 +
            (0xdc00 + (c.toNat - 0x10000) % 0x400 - 0xdc00) = c.toNat from by omega]
      rw [Char.ofNat_toNat]

/-- each encoded char is nonempty -/
theorem encodeJChar_length_pos (c : Char) : 1 ≤ (encodeJChar c).length := by
  unfold encodeJChar
  split_ifs <;> simp [toHex4]

theorem encodeJList_length_ge (s : PyStr) : s.length ≤ (encodeJList s).length := by
  induction s with
  | nil => simp [encodeJList]
  | cons c s ih =>
    have := encodeJChar_length_pos c
    simp only [encodeJList, List.length_append, List.length_cons]
    omega

theorem parseJStringContent_encode (s : PyStr) (rest : PyStr) :
    ∀ fuel, s.length + 1 ≤ fuel →
    parseJStringContent fuel (encodeJList s ++ ('\"' :: rest)) = some (s, rest) := by
  induction s generalizing rest with
  | nil =>
    intro fuel hf
    obtain ⟨f, rfl⟩ : ∃ f, fuel = f + 1 := ⟨fuel - 1, by omega⟩
    simp only [encodeJList, List.nil_append]
    simp [parseJStringContent]
  | cons c s ih =>
    intro fuel hf
    obtain ⟨f, rfl⟩ : ∃ f, fuel = f + 1 := ⟨fuel - 1, by omega⟩
    obtain ⟨ch0, tl, henc, hq, hp⟩ := parseJChar_encodeJChar c ((encodeJList s ++ ('\"' :: rest)))
    simp only [encodeJList, List.append_assoc]
    rw [henc, List.cons_append]
    simp only [parseJStringContent]
    rw [if_neg hq]
    simp only [hp]
    rw [ih rest f (by simp at hf; omega)]
    rfl

theorem parseJString_encode (s : PyStr) (rest : PyStr) :
    parseJString (encodeJList s ++ ('\"' :: rest)) = some (s, rest) := by
  unfold parseJString
  apply parseJStringContent_encode
  have := encodeJList_length_ge s
  simp only [List.length_append, List.length_cons]
  omega

@[simp] theorem skipWs_nil : skipWs [] = [] := rfl
@[simp] theorem skipWs_space (s : PyStr) : skipWs (' ' :: s) = skipWs s := rfl
@[simp] theorem skipWs_nl (s : PyStr) : skipWs ('\n' :: s) = skipWs s := rfl
@[simp] theorem skipWs_quote (s : PyStr) : skipWs ('\"' :: s) = '\"' :: s := rfl
@[simp] theorem skipWs_colon (s : PyStr) : skipWs (':' :: s) = ':' :: s := rfl
@[simp] theorem skipWs_comma (s : PyStr) : skipWs (',' :: s) = ',' :: s := rfl
@[simp] theorem skipWs_lb (s : PyStr) : skipWs ('\x7b' :: s) = '\x7b' :: s := rfl
@[simp] theorem skipWs_rb (s : PyStr) : skipWs ('\x7d' :: s) = '\x7d' :: s := rfl

theorem pyLit_entry1 : pyStr "\x7b\n    " = '\x7b' :: '\n' :: ' ' :: ' ' :: ' ' :: ' ' :: [] := rfl
theorem pyLit_colon : pyStr ": " = ':' :: ' ' :: [] := rfl
theorem pyLit_entry2 : pyStr ",\n    " = ',' :: '\n' :: ' ' :: ' ' :: ' ' :: ' ' :: [] := rfl
theorem pyLit_entry3 : pyStr "\n  \x7d" = '\n' :: ' ' :: ' ' :: '\x7d' :: [] := rfl
theorem pyLit_item : pyStr "  " = ' ' :: ' ' :: [] := rfl
theorem pyLit_sep : pyStr ",\n" = ',' :: '\n' :: [] := rfl
theorem pyLit_open : pyStr "\x7b\n" = '\x7b' :: '\n' :: [] := rfl
theorem pyLit_close : pyStr "\n\x7d" = '\n' :: '\x7d' :: [] := rfl

theorem encodeJString_cons (s : PyStr) (tail : PyStr) :
    encodeJString s ++ tail = '\"' :: (encodeJList s ++ ('\"' :: tail)) := by
  show ('\"' :: (encodeJList s ++ ['\"'])) ++ tail = _
  simp

/-- Parsing the serialized form of one entry value returns that entry. -/
theorem parseEntryObj_dumpEntry (e : Entry) (tail : PyStr) :
    ∀ fuel, 2 ≤ fuel → parseEntryObj fuel (dumpEntry e ++ tail) = some (e, tail) := by
  obtain ⟨w, syn⟩ := e
  intro fuel hf
  obtain ⟨f, rfl⟩ : ∃ f, fuel = f + 1 + 1 := ⟨fuel - 2, by omega⟩
  simp only [dumpEntry, pyLit_entry1, pyLit_colon, pyLit_entry2, pyLit_entry3,
    List.cons_append, List.nil_append, List.append_assoc, encodeJString_cons]
  simp only [parseEntryObj, parseStrPairs, skipWs_lb, skipWs_nl, skipWs_space, skipWs_quote,
    skipWs_colon, skipWs_comma, skipWs_rb, parseJString_encode, alookup,
    List.length_cons, List.length_nil]
  simp [alookup, (by decide : ¬ (('\"' : Char) = '\x7d')), (by decide : ¬ (('\x7d' : Char) = ',')),
    (by decide : ¬ ((',' : Char) = '\x7d')), (by decide : ¬ (pyStr "synopsis" = pyStr "when"))]


/-- `parseEntryObj` ignores leading spaces. -/
theorem parseEntryObj_ws (fuel : Nat) (s : PyStr) :
    parseEntryObj fuel (' ' :: s) = parseEntryObj fuel s := by
  simp only [parseEntryObj, skipWs_space]

/-- Parsing the serialized items of a non-empty cache (preceded by the
newline that follows the opening brace, and followed by the closing
newline-brace) returns exactly those items. -/
theorem parseCacheItems_dumpItems :
    ∀ (l : Cache) (k : PyStr) (e : Entry) (tail : PyStr) (fuel : Nat),
      l.length + 3 ≤ fuel →
      parseCacheItems fuel ('\n' :: (dumpItems ((k, e) :: l) ++ ('\n' :: '\x7d' :: tail))) =
        some ((k, e) :: l, tail) := by
  intro l
  induction l with
  | nil =>
    intro k e tail fuel hf
    obtain ⟨f, rfl⟩ : ∃ f, fuel = f + 1 := ⟨fuel - 1, by omega⟩
    simp only [dumpItems, pyLit_item, pyLit_colon, List.cons_append, List.nil_append,
      List.append_assoc, encodeJString_cons]
    simp only [parseCacheItems, skipWs_nl, skipWs_space, skipWs_quote, skipWs_colon,
      parseJString_encode]
    rw [parseEntryObj_ws, parseEntryObj_dumpEntry e ('\n' :: '\x7d' :: tail) f (by omega)]
    simp [(by decide : ¬ (('\"' : Char) = '\x7d')), (by decide : ¬ (('\x7d' : Char) = ','))]
  | cons x l ih =>
    obtain ⟨k2, e2⟩ := x
    intro k e tail fuel hf
    obtain ⟨f, rfl⟩ : ∃ f, fuel = f + 1 := ⟨fuel - 1, by omega⟩
    rw [show dumpItems ((k, e) :: (k2, e2) :: l) =
        pyStr "  " ++ encodeJString k ++ pyStr ": " ++ dumpEntry e ++ pyStr ",\n" ++
          dumpItems ((k2, e2) :: l) from rfl]
    simp only [pyLit_item, pyLit_colon, pyLit_sep, List.cons_append, List.nil_append,
      List.append_assoc, encodeJString_cons]
    simp only [parseCacheItems, skipWs_nl, skipWs_space, skipWs_quote, skipWs_colon,
      parseJString_encode]
    rw [parseEntryObj_ws,
      parseEntryObj_dumpEntry e (',' :: '\n' :: (dumpItems ((k2, e2) :: l) ++
        ('\n' :: '\x7d' :: tail))) f (by omega)]
    simp [(by decide : ¬ (('\"' : Char) = '\x7d')),
      ih k2 e2 tail f (by simp at hf ⊢; omega)]


/-- After whitespace, the serialized items of a non-empty cache start with
the quote of the first key. -/
theorem dumpItems_skipWs (k : PyStr) (e : Entry) (l : Cache) (tl : PyStr) :
    ∃ Y, skipWs (dumpItems ((k, e) :: l) ++ tl) = '\"' :: Y := by
  cases l with
  | nil =>
    exact ⟨encodeJList k ++ ('\"' :: (':' :: ' ' :: (dumpEntry e ++ tl))), by
      rw [show dumpItems [(k, e)] =
          pyStr "  " ++ encodeJString k ++ pyStr ": " ++ dumpEntry e from rfl]
      simp only [pyLit_item, pyLit_colon, List.cons_append, List.nil_append,
        List.append_assoc, encodeJString_cons, skipWs_space, skipWs_quote]⟩
  | cons y l2 =>
    exact ⟨encodeJList k ++ ('\"' :: (':' :: ' ' :: (dumpEntry e ++
        (',' :: '\n' :: (dumpItems (y :: l2) ++ tl))))), by
      rw [show dumpItems ((k, e) :: y :: l2) =
          pyStr "  " ++ encodeJString k ++ pyStr ": " ++ dumpEntry e ++ pyStr ",\n" ++
            dumpItems (y :: l2) from rfl]
      simp only [pyLit_item, pyLit_colon, pyLit_sep, List.cons_append, List.nil_append,
        List.append_assoc, encodeJString_cons, skipWs_space, skipWs_quote]⟩

/-- The serialized items are at least as long as the item list. -/
theorem dumpItems_length_ge : ∀ l : Cache, l.length ≤ (dumpItems l).length := by
  intro l
  induction l with
  | nil => simp [dumpItems]
  | cons x l ih =>
    obtain ⟨k, e⟩ := x
    cases l with
    | nil =>
      rw [show dumpItems [(k, e)] =
          pyStr "  " ++ encodeJString k ++ pyStr ": " ++ dumpEntry e from rfl]
      simp only [pyLit_item, pyLit_colon, List.length_append, List.length_cons,
        List.length_nil]
      omega
    | cons y l2 =>
      rw [show dumpItems ((k, e) :: y :: l2) =
          pyStr "  " ++ encodeJString k ++ pyStr ": " ++ dumpEntry e ++ pyStr ",\n" ++
            dumpItems (y :: l2) from rfl]
      simp only [pyLit_item, pyLit_colon, pyLit_sep, List.length_append, List.length_cons,
        List.length_nil] at ih ⊢
      omega

/-- The serializer/deserializer round trip: loading a dumped cache returns
its key-sorted item list. -/
theorem json_load_dump (c : Cache) : json_load_cache (json_dump_cache c) = some (sortCache c) := by
  cases hs : sortCache c with
  | nil =>
    rw [show json_dump_cache c = pyStr "\x7b\x7d" from by
      unfold json_dump_cache
      rw [hs]]
    decide
  | cons x l =>
    obtain ⟨k, e⟩ := x
    rw [show json_dump_cache c =
        pyStr "\x7b\n" ++ dumpItems ((k, e) :: l) ++ pyStr "\n\x7d" from by
      unfold json_dump_cache
      rw [hs]]
    simp only [pyLit_open, pyLit_close, List.cons_append, List.nil_append, List.append_assoc]
    obtain ⟨Y, hY⟩ := dumpItems_skipWs k e l ('\n' :: '\x7d' :: [])
    unfold json_load_cache
    simp only [skipWs_lb, skipWs_nl, hY]
    have hlen := dumpItems_length_ge ((k, e) :: l)
    rw [parseCacheItems_dumpItems l k e []
      (('\x7b' :: '\n' :: (dumpItems ((k, e) :: l) ++ ('\n' :: '\x7d' :: []))).length + 1)
      (by simp only [List.length_cons, List.length_append] at hlen ⊢; omega)]
    simp [(by decide : ¬ (('\"' : Char) = '\x7d'))]


theorem insertSorted_perm (x : PyStr × Entry) (l : Cache) : (insertSorted x l).Perm (x :: l) := by
  induction l with
  | nil => exact List.Perm.refl _
  | cons y ys ih =>
    by_cases h : pyStrLt y.1 x.1
    · simp only [insertSorted, if_pos h]
      exact (ih.cons y).trans (List.Perm.swap x y ys)
    · simp only [insertSorted, if_neg h]
      exact List.Perm.refl _

theorem sortCache_perm (l : Cache) : (sortCache l).Perm l := by
  induction l with
  | nil => exact List.Perm.refl _
  | cons x xs ih => exact (insertSorted_perm x (sortCache xs)).trans (ih.cons x)

theorem alookup_eq_none_iff {β : Type} (k : PyStr) (l : List (PyStr × β)) :
    alookup k l = none ↔ k ∉ l.map Prod.fst := by
  induction l with
  | nil => exact iff_of_true rfl (List.not_mem_nil k)
  | cons a t ih =>
    obtain ⟨k', v⟩ := a
    by_cases h : k' = k
    · subst h
      refine iff_of_false ?_ (not_not_intro ?_)
      · intro hc
        rw [show alookup k' ((k', v) :: t) = some v from by rw [alookup, if_pos rfl]] at hc
        exact Option.noConfusion hc
      · rw [List.map_cons]
        exact List.mem_cons_self _ _
    · simp only [alookup, if_neg h, List.map_cons, List.mem_cons, not_or, ih]
      constructor
      · intro hn
        exact ⟨fun heq => h heq.symm, hn⟩
      · intro hn
        exact hn.2

theorem alookup_eq_some_iff {β : Type} (k : PyStr) (v : β) (l : List (PyStr × β))
    (hnd : (l.map Prod.fst).Nodup) : alookup k l = some v ↔ (k, v) ∈ l := by
  induction l with
  | nil => exact iff_of_false (fun hc => Option.noConfusion hc) (List.not_mem_nil _)
  | cons a t ih =>
    obtain ⟨k', v'⟩ := a
    simp only [List.map_cons, List.nodup_cons] at hnd
    obtain ⟨hk', hnd'⟩ := hnd
    by_cases h : k' = k
    · subst h
      constructor
      · intro hv
        have hv2 : some v' = some v := by simpa [alookup] using hv
        injection hv2 with hv2
        exact List.mem_cons.mpr (Or.inl (by rw [hv2]))
      · intro hm
        rcases List.mem_cons.mp hm with heq | hmem
        · have h2 : v = v' := congrArg Prod.snd heq
          simp [alookup, h2]
        · exact absurd (List.mem_map.mpr ⟨(k', v), hmem, rfl⟩) hk'
    · simp only [alookup, if_neg h, List.mem_cons, ih hnd']
      constructor
      · intro hm
        exact Or.inr hm
      · intro hm
        rcases hm with heq | hmem
        · exact absurd (congrArg Prod.fst heq).symm h
        · exact hmem

theorem alookup_perm {β : Type} {l1 l2 : List (PyStr × β)} (hp : l1.Perm l2)
    (hnd : (l1.map Prod.fst).Nodup) (k : PyStr) : alookup k l1 = alookup k l2 := by
  have hnd2 : (l2.map Prod.fst).Nodup := ((hp.map Prod.fst).nodup_iff).mp hnd
  cases h1 : alookup k l1 with
  | none =>
    rw [alookup_eq_none_iff] at h1
    have h2 : alookup k l2 = none :=
      (alookup_eq_none_iff k l2).mpr (fun hm => h1 (((hp.map Prod.fst).mem_iff).mpr hm))
    rw [h2]
  | some v =>
    have hm := (alookup_eq_some_iff k v l1 hnd).mp h1
    have h2 : alookup k l2 = some v := (alookup_eq_some_iff k v l2 hnd2).mpr (hp.subset hm)
    rw [h2]

/-- C6: For every cache mapping from advisory-id strings to
`{when, synopsis}` string records (distinct keys, as any Python dict has)
and every path, `save(path, mapping)` followed by `load(path)` returns a
mapping equal to the one saved: the loaded dict is the key-sorted item
list, whose lookup agrees with the original at every key. -/
theorem claim_C6 (fs : PyStr → Option PyStr) (path : PyStr) (cache : Cache)
    (h : (cache.map Prod.fst).Nodup) :
    load (save fs path cache) path = some (sortCache cache) ∧
    ∀ k, alookup k (sortCache cache) = alookup k cache := by
  constructor
  · unfold load save
    rw [if_pos rfl]
    exact json_load_dump cache
  · intro k
    have hnd : ((sortCache cache).map Prod.fst).Nodup :=
      (((sortCache_perm cache).map Prod.fst).nodup_iff).mpr h
    exact alookup_perm (sortCache_perm cache) hnd k

/-- C6 witness: the round trip evaluated on a one-entry cache at the
path `.errata.json` over an empty file system. -/
theorem claim_C6_witness :
    load (save (fun _ => none) (pyStr ".errata.json")
        [(pyStr "RHBA-2021:0001", Entry.mk (pyStr "2021-01-01") (pyStr "x bug fix update"))])
        (pyStr ".errata.json")
      = some (sortCache [(pyStr "RHBA-2021:0001",
          Entry.mk (pyStr "2021-01-01") (pyStr "x bug fix update"))]) ∧
    alookup (pyStr "RHBA-2021:0001")
        (sortCache [(pyStr "RHBA-2021:0001",
          Entry.mk (pyStr "2021-01-01") (pyStr "x bug fix update"))])
      = alookup (pyStr "RHBA-2021:0001")
          [(pyStr "RHBA-2021:0001", Entry.mk (pyStr "2021-01-01") (pyStr "x bug fix update"))] :=
  ⟨(claim_C6 (fun _ => none) (pyStr ".errata.json")
      [(pyStr "RHBA-2021:0001", Entry.mk (pyStr "2021-01-01") (pyStr "x bug fix update"))]
      (by decide)).1,
   (claim_C6 (fun _ => none) (pyStr ".errata.json")
      [(pyStr "RHBA-2021:0001", Entry.mk (pyStr "2021-01-01") (pyStr "x bug fix update"))]
      (by decide)).2 (pyStr "RHBA-2021:0001")⟩

end Errata
